import Mathlib

/-
Verification of the tailnet-microservices OAuth account-pool gateway.

This file gives a shallow embedding, in Lean 4, of the core of the
repository: the error classifier (crates/anthropic-pool/src/quota.rs),
the account pool with round-robin selection and lazy cooldown transitions
(crates/anthropic-pool/src/pool.rs), the background refresh cycle
(crates/anthropic-pool/src/refresh.rs), the token endpoint failure mapping
(crates/anthropic-auth/src/token.rs), the credential store serialization
(crates/anthropic-auth/src/credentials.rs), the system prompt injection of
the OAuth provider (services/oauth-proxy/src/provider_impl.rs), and the
failover decision logic of the request pipeline
(services/oauth-proxy/src/proxy.rs).

Modelling conventions:
- Rust HashMap is modelled as an association list with replace-on-insert
  semantics (`mapLookup` / `mapInsert`); only lookup semantics matter.
- `std::time::Instant` is a natural number of abstract monotonic ticks
  (`Env.now`); unix wall-clock milliseconds are `Env.nowMillis`.
- Network I/O (the token endpoint and the upstream inference API) is
  modelled by oracles passed in as function parameters: `Env.net` maps a
  refresh token to the token endpoint's response (`none` is a transport
  error), and the pipeline's `upstream` maps an account id to the
  upstream (status, body) pair.
- serde_json values are modelled by the inductive `Json`; file text
  encoding is serde's, not this repository's, so the credential store
  round trip is stated at the JSON-tree level.
-/

namespace TailnetProxy

/-! ## Association-list maps (model of HashMap / serde_json object maps) -/

/-- Lookup in an association list; models `HashMap::get`. -/
def mapLookup {α : Type} (m : List (String × α)) (k : String) : Option α :=
  match m with
  | [] => none
  | (k2, v) :: rest => if k2 = k then some v else mapLookup rest k

/-- Insert with replacement; models `HashMap::insert` (only lookup
semantics of the result matter). -/
def mapInsert {α : Type} (m : List (String × α)) (k : String) (v : α) :
    List (String × α) :=
  match m with
  | [] => [(k, v)]
  | (k2, v2) :: rest =>
    if k2 = k then (k, v) :: rest else (k2, v2) :: mapInsert rest k v

/-- Remove a key; models `HashMap::remove`. -/
def mapRemove {α : Type} (m : List (String × α)) (k : String) :
    List (String × α) :=
  match m with
  | [] => []
  | (k2, v2) :: rest =>
    if k2 = k then mapRemove rest k else (k2, v2) :: mapRemove rest k

theorem mapLookup_insert_self {α : Type} (m : List (String × α)) (k : String)
    (v : α) : mapLookup (mapInsert m k v) k = some v := by
  induction m with
  | nil => simp [mapInsert, mapLookup]
  | cons p rest ih =>
    by_cases h : p.1 = k
    · simp [mapInsert, h, mapLookup]
    · simp [mapInsert, h, mapLookup, ih]

theorem mapLookup_insert_ne {α : Type} (m : List (String × α)) (k k2 : String)
    (v : α) (h : k ≠ k2) : mapLookup (mapInsert m k v) k2 = mapLookup m k2 := by
  induction m with
  | nil => simp [mapInsert, mapLookup, h]
  | cons p rest ih =>
    by_cases hp : p.1 = k
    · simp [mapInsert, hp, mapLookup, h]
    · simp [mapInsert, hp, mapLookup, ih]

/-! ## Error classification (crates/provider/src/lib.rs) -/

/-- Classification of upstream errors; `provider::ErrorClassification`. -/
inductive ErrorClassification where
  | Transient
  | QuotaExceeded
  | Permanent
deriving DecidableEq, Repr

/-! ## Quota detection (crates/anthropic-pool/src/quota.rs) -/

/-- ASCII lowercasing of a string; models `str::to_lowercase` (the quota
patterns and model names compared are ASCII). -/
def lowerStr (s : String) : String := String.mk (s.data.map Char.toLower)

/-- Substring test on character lists. -/
def listContainsSub (pat : List Char) (hay : List Char) : Bool :=
  match hay with
  | [] => pat.isEmpty
  | _ :: t => pat.isPrefixOf hay || listContainsSub pat t

/-- Substring test; models `str::contains` with a string pattern. -/
def strContains (hay pat : String) : Bool := listContainsSub pat.data hay.data

/-- Quota exhaustion message patterns; `QUOTA_PATTERNS` in quota.rs. -/
def QUOTA_PATTERNS : List String :=
  ["5-hour", "5 hour", "rolling window", "usage limit for your plan",
   "subscription usage limit"]

/-- The pattern loop inside `classify_429`. -/
def classify429Go (lower : String) : List String → ErrorClassification
  | [] => .Transient
  | p :: rest =>
    if strContains lower p then .QuotaExceeded else classify429Go lower rest

/-- Classify a 429 response body; `classify_429` in quota.rs. -/
def classify_429 (body : String) : ErrorClassification :=
  classify429Go (lowerStr body) QUOTA_PATTERNS

/-- Classify an upstream error by HTTP status and body; `classify_status`
in quota.rs. The Rust match arms `408 | 500 | 502 | 503 | 504` and the
catch-all both yield Transient; both arms are kept. -/
def classify_status (status : Nat) (body : String) : ErrorClassification :=
  if status = 429 then classify_429 body
  else if status = 401 ∨ status = 403 then .Permanent
  else if status = 408 ∨ status = 500 ∨ status = 502 ∨ status = 503 ∨
      status = 504 then .Transient
  else .Transient

/-- The quota-phrase condition of the classifier: the lowercased body
contains one of the patterns. -/
def quotaBodyMatch (body : String) : Bool :=
  QUOTA_PATTERNS.any (fun p => strContains (lowerStr body) p)

/-! ## JSON values (model of serde_json::Value) -/

/-- A JSON value. Numbers are restricted to the naturals actually used by
this repository (u64 timestamps and counts). -/
inductive Json where
  | null
  | bool (b : Bool)
  | num (n : Nat)
  | str (s : String)
  | arr (elems : List Json)
  | obj (fields : List (String × Json))

/-- Field access on a JSON object; models `Value::get(&str)` (returns
`None` on non-objects). -/
def Json.get (j : Json) (key : String) : Option Json :=
  match j with
  | .obj fields => mapLookup fields key
  | _ => none

/-- String extraction; models `Value::as_str`. -/
def Json.asStr : Json → Option String
  | .str s => some s
  | _ => none

/-- Key assignment on a JSON object; models `body[key] = v` on an object
value (the only shape on which the source performs it). -/
def Json.setKey (j : Json) (key : String) (v : Json) : Json :=
  match j with
  | .obj fields => .obj (mapInsert fields key v)
  | _ => j

/-! ## Credentials and the token endpoint
(crates/anthropic-auth/src/credentials.rs, token.rs) -/

/-- One account's OAuth credentials; `Credential` in credentials.rs.
`expires` is a unix timestamp in milliseconds. -/
structure Credential where
  credential_type : String
  refresh : String
  access : String
  expires : Nat
deriving DecidableEq, Repr

/-- Token endpoint response; `TokenResponse` in token.rs. `expires_in`
is a delta in seconds. -/
structure TokenResponse where
  access_token : String
  refresh_token : String
  expires_in : Nat
deriving DecidableEq, Repr

/-- Auth error type; `Error` in crates/anthropic-auth/src/error.rs
(the `Io` variant is spelled `IoErr` here). -/
inductive AuthError where
  | Http (msg : String)
  | TokenExchange (msg : String)
  | InvalidCredentials (msg : String)
  | CredentialParse (msg : String)
  | IoErr (msg : String)
  | NotFound (msg : String)
deriving DecidableEq, Repr

/-- An HTTP response from the token endpoint, as far as `refresh_token`
inspects it: status, body text, and the result of parsing the body as a
`TokenResponse` (`none` when parsing fails). -/
structure HttpResponse where
  status : Nat
  body : String
  json : Option TokenResponse
deriving Repr

/-- Status/body handling of `refresh_token` in token.rs, applied to a
received response: success statuses parse the body; 401/403 map to
`InvalidCredentials`; other non-success statuses map to `TokenExchange`. -/
def refreshTokenOfResponse (resp : HttpResponse) : Except AuthError TokenResponse :=
  if 200 ≤ resp.status ∧ resp.status ≤ 299 then
    match resp.json with
    | some tr => .ok tr
    | none => .error (.TokenExchange "invalid refresh response")
  else if resp.status = 401 ∨ resp.status = 403 then
    .error (.InvalidCredentials resp.body)
  else .error (.TokenExchange resp.body)

/-- A token refresh attempt: the network oracle maps a refresh token to
the endpoint's response (`none` is a transport error, which token.rs maps
to `Error::Http`); a received response goes through `refresh_token`'s
status handling. -/
def attemptRefresh (net : String → Option HttpResponse) (refresh : String) :
    Except AuthError TokenResponse :=
  match net refresh with
  | none => .error (.Http "token refresh request failed")
  | some resp => refreshTokenOfResponse resp

/-- The credential store's in-memory state: account id to credential. -/
abbrev Store := List (String × Credential)

/-- `CredentialStore::get`. -/
def storeGet (store : Store) (account_id : String) : Option Credential :=
  mapLookup store account_id

/-- `CredentialStore::update_token`: replaces the token triple in place,
keeping `credential_type`. On an absent account the source returns
`NotFound`, which both call sites only log; the store is then unchanged. -/
def storeUpdateToken (store : Store) (account_id : String)
    (access refresh : String) (expires : Nat) : Store :=
  match mapLookup store account_id with
  | none => store
  | some c =>
    mapInsert store account_id
      { c with access := access, refresh := refresh, expires := expires }

/-! ## Credential store serialization (credentials.rs, serde derive)

`write_atomic` serializes the map with serde (`Credential` derives
Serialize/Deserialize with field `credential_type` renamed to "type");
`load` parses it back. The round trip is modelled at the JSON-tree
level; the byte-level JSON text encoding is serde_json's, outside this
repository. -/

/-- Serialization of one credential: the serde `Serialize` derive with
the `type` rename. -/
def credentialToJson (c : Credential) : Json :=
  .obj [("type", .str c.credential_type), ("refresh", .str c.refresh),
        ("access", .str c.access), ("expires", .num c.expires)]

/-- Parsing of one credential: the serde `Deserialize` derive — each of
the four fields is required with its expected type (unknown fields are
ignored by serde's default, which lookup-based parsing reflects). -/
def credentialFromJson (j : Json) : Option Credential :=
  match j.get "type", j.get "refresh", j.get "access", j.get "expires" with
  | some (.str t), some (.str r), some (.str a), some (.num e) =>
    some { credential_type := t, refresh := r, access := a, expires := e }
  | _, _, _, _ => none

/-- Serialization of the whole store state (a JSON object keyed by
account id), as written by `write_atomic`. -/
def stateToJson (m : Store) : Json :=
  .obj (m.map (fun p => (p.1, credentialToJson p.2)))

/-- Sequential parse of the object entries of a credential file: every
entry must parse as a credential (serde fails the whole load otherwise). -/
def credListFromJson : List (String × Json) → Option Store
  | [] => some []
  | p :: rest =>
    match credentialFromJson p.2, credListFromJson rest with
    | some c, some tail => some ((p.1, c) :: tail)
    | _, _ => none

/-- Parsing of the whole store state, as performed by
`CredentialStore::load` on the file contents. -/
def stateFromJson (j : Json) : Option Store :=
  match j with
  | .obj fields => credListFromJson fields
  | _ => none

/-! ## The account pool (crates/anthropic-pool/src/pool.rs) -/

/-- Runtime status of a pool account; `AccountStatus` in pool.rs.
`untilTick` is the monotonic instant at which a cooldown ends. -/
inductive AccountStatus where
  | Available
  | CoolingDown (untilTick : Nat)
  | Disabled
deriving DecidableEq, Repr

/-- A selected account ready for a request; `SelectedAccount` in pool.rs. -/
structure SelectedAccount where
  id : String
  access_token : String
deriving DecidableEq, Repr

/-- The pool's mutable state: ordered id list, status map, round-robin
cursor, and the configured cooldown duration (in monotonic ticks). -/
structure PoolState where
  account_ids : List String
  statuses : List (String × AccountStatus)
  next_index : Nat
  cooldown_duration : Nat
deriving Repr

/-- The environment of a pool operation: the token endpoint oracle, the
monotonic clock (`Instant::now()`), and the wall clock in milliseconds
(`SystemTime::now()` since the epoch). -/
structure Env where
  net : String → Option HttpResponse
  now : Nat
  nowMillis : Nat

/-- `Pool::new`: every listed account starts `Available`, cursor 0. -/
def Pool.new (account_ids : List String) (cooldown_duration : Nat) : PoolState :=
  { account_ids := account_ids
    statuses := account_ids.map (fun id => (id, AccountStatus.Available))
    next_index := 0
    cooldown_duration := cooldown_duration }

/-- Pool counts as computed by `Pool::count_statuses` and carried in a
`PoolExhausted` error. -/
structure PoolCounts where
  total : Nat
  available : Nat
  cooling_down : Nat
  disabled : Nat
deriving DecidableEq, Repr

/-- The per-id tally loop of `Pool::count_statuses`; returns
(available, cooling, disabled). A cooldown whose deadline has passed is
tallied as available. -/
def countStatusesGo (statuses : List (String × AccountStatus)) (now : Nat) :
    List String → Nat × Nat × Nat
  | [] => (0, 0, 0)
  | id :: rest =>
    let (a, c, d) := countStatusesGo statuses now rest
    match mapLookup statuses id with
    | some .Available => (a + 1, c, d)
    | some (.CoolingDown u) => if u ≤ now then (a + 1, c, d) else (a, c + 1, d)
    | some .Disabled => (a, c, d + 1)
    | none => (a, c, d + 1)

/-- `Pool::count_statuses`. -/
def count_statuses (st : PoolState) (now : Nat) : PoolCounts :=
  let t := countStatusesGo st.statuses now st.account_ids
  { total := st.account_ids.length, available := t.1,
    cooling_down := t.2.1, disabled := t.2.2 }

/-- The JSON body carried by a `PoolExhausted` error;
`Pool::exhausted_message`. -/
def exhausted_message (c : PoolCounts) : Json :=
  .obj [("error", .obj
    [("type", .str "pool_exhausted"),
     ("message", .str "All accounts exhausted"),
     ("pool", .obj
       [("accounts_total", .num c.total),
        ("accounts_available", .num c.available),
        ("accounts_cooling_down", .num c.cooling_down),
        ("accounts_disabled", .num c.disabled)])])]

/-- The status inspection block inside `Pool::select`'s scan, with the
lazy cooldown transition: returns whether the account is eligible and
the (possibly updated) status map. -/
def inspectStatus (env : Env) (statuses : List (String × AccountStatus))
    (id : String) : Bool × List (String × AccountStatus) :=
  match mapLookup statuses id with
  | some .Available => (true, statuses)
  | some (.CoolingDown u) =>
    if u ≤ env.now then (true, mapInsert statuses id .Available)
    else (false, statuses)
  | some .Disabled => (false, statuses)
  | none => (false, statuses)

/-- The scan loop of `Pool::select` (the `for offset in 0..n` body).
`fuel` is the number of offsets left to scan; `offset` is the current
offset. Returns the selected account (if any) together with the status
map and credential store as mutated by the scan. -/
def selectLoop (env : Env) (ids : List String) (n start : Nat) :
    Nat → Nat → List (String × AccountStatus) → Store →
    Option SelectedAccount × List (String × AccountStatus) × Store
  | _, 0, statuses, store => (none, statuses, store)
  | offset, fuel + 1, statuses, store =>
    let idx := (start + offset) % n
    let id := ids.getD idx ""
    let av := inspectStatus env statuses id
    if av.1 = false then
      selectLoop env ids n start (offset + 1) fuel av.2 store
    else
      match storeGet store id with
      | none =>
        -- account in pool but not in credential store: disable and continue
        selectLoop env ids n start (offset + 1) fuel
          (mapInsert av.2 id .Disabled) store
      | some credential =>
        if credential.expires ≤ env.nowMillis + 60000 then
          -- request-time inline refresh
          match attemptRefresh env.net credential.refresh with
          | .ok tr =>
            let newExpires := env.nowMillis + tr.expires_in * 1000
            (some { id := id, access_token := tr.access_token }, av.2,
             storeUpdateToken store id tr.access_token tr.refresh_token newExpires)
          | .error _ =>
            selectLoop env ids n start (offset + 1) fuel
              (mapInsert av.2 id .Disabled) store
        else
          (some { id := id, access_token := credential.access }, av.2, store)

/-- The result of `Pool::select`: the selection outcome together with
the pool and store states after the call. A failure carries the pool
counts embedded in the `PoolExhausted` JSON body. -/
structure SelectOut where
  result : Except PoolCounts SelectedAccount
  pool : PoolState
  store : Store

/-- Packaging of the scan loop's output by `Pool::select`: a hit returns
the account; a completed scan recomputes the counts and fails with
`PoolExhausted`. -/
def selectFinish (env : Env) (st1 : PoolState) :
    Option SelectedAccount × List (String × AccountStatus) × Store → SelectOut
  | (some sel, statuses2, store2) =>
    { result := .ok sel, pool := { st1 with statuses := statuses2 },
      store := store2 }
  | (none, statuses2, store2) =>
    let pool2 : PoolState := { st1 with statuses := statuses2 }
    { result := .error (count_statuses pool2 env.now), pool := pool2,
      store := store2 }

/-- `Pool::select`: round-robin scan from the cursor with lazy cooldown
transitions, store reconciliation, and inline refresh. The cursor is
fetch-and-incremented before the scan. -/
def Pool.select (env : Env) (st : PoolState) (store : Store) : SelectOut :=
  let n := st.account_ids.length
  if n = 0 then
    { result := .error { total := 0, available := 0, cooling_down := 0,
                         disabled := 0 },
      pool := st, store := store }
  else
    let start := st.next_index % n
    let st1 := { st with next_index := st.next_index + 1 }
    selectFinish env st1 (selectLoop env st.account_ids n start 0 n st.statuses store)

/-- `Pool::report_error`: QuotaExceeded starts a cooldown of
`cooldown_duration` from now, Permanent disables, Transient is a no-op. -/
def report_error (st : PoolState) (account_id : String)
    (classification : ErrorClassification) (now : Nat) : PoolState :=
  match classification with
  | .QuotaExceeded =>
    { st with statuses :=
        mapInsert st.statuses account_id (.CoolingDown (now + st.cooldown_duration)) }
  | .Permanent =>
    { st with statuses := mapInsert st.statuses account_id .Disabled }
  | .Transient => st

/-- `Pool::add_account`: appends the id when absent and unconditionally
sets its status to `Available`. -/
def add_account (st : PoolState) (account_id : String) : PoolState :=
  let ids := if account_id ∈ st.account_ids then st.account_ids
             else st.account_ids ++ [account_id]
  { st with account_ids := ids,
            statuses := mapInsert st.statuses account_id .Available }

/-- `Pool::remove_account`. -/
def remove_account (st : PoolState) (account_id : String) : PoolState :=
  { st with account_ids := st.account_ids.filter (fun id => id ≠ account_id),
            statuses := mapRemove st.statuses account_id }

/-- `Pool::set_status` (used by the background refresher). -/
def set_status (st : PoolState) (account_id : String) (status : AccountStatus) :
    PoolState :=
  { st with statuses := mapInsert st.statuses account_id status }

/-! ## Background refresh (crates/anthropic-pool/src/refresh.rs) -/

/-- The per-account body of `refresh_cycle`'s loop, folded over the
snapshot of account ids. `now` is read once before the loop;
`thresholdMillis` is the configured refresh threshold. -/
def refreshCycleGo (net : String → Option HttpResponse)
    (now thresholdMillis : Nat) :
    List String → List (String × AccountStatus) → Store →
    List (String × AccountStatus) × Store
  | [], statuses, store => (statuses, store)
  | id :: rest, statuses, store =>
    match storeGet store id with
    | none => refreshCycleGo net now thresholdMillis rest statuses store
    | some credential =>
      if now + thresholdMillis < credential.expires then
        -- token not expiring within threshold: skip
        refreshCycleGo net now thresholdMillis rest statuses store
      else
        match attemptRefresh net credential.refresh with
        | .ok tr =>
          let store2 := storeUpdateToken store id tr.access_token
            tr.refresh_token (now + tr.expires_in * 1000)
          refreshCycleGo net now thresholdMillis rest statuses store2
        | .error (.InvalidCredentials _) =>
          refreshCycleGo net now thresholdMillis rest
            (mapInsert statuses id .Disabled) store
        | .error _ =>
          refreshCycleGo net now thresholdMillis rest statuses store

/-- `refresh_cycle`: one tick of the background refresher over the
snapshot of the pool's account ids. -/
def refresh_cycle (net : String → Option HttpResponse)
    (now thresholdMillis : Nat) (st : PoolState) (store : Store) :
    PoolState × Store :=
  let out := refreshCycleGo net now thresholdMillis st.account_ids st.statuses store
  ({ st with statuses := out.1 }, out.2)

/-! ## System prompt injection (services/oauth-proxy/src/provider_impl.rs) -/

/-- The required system prompt string; `REQUIRED_SYSTEM_PROMPT_PREFIX`
in crates/anthropic-auth/src/constants.rs. -/
def requiredSystemPromptStr : String :=
  "You are Claude Code, Anthropic" ++ String.singleton (Char.ofNat 39) ++
  "s official CLI for Claude."

/-- `extract_model`: the `model` field of the body as a string. -/
def extract_model (body : Json) : Option String :=
  (body.get "model").bind Json.asStr

/-- `inject_system_prompt` in provider_impl.rs. -/
def inject_system_prompt (body : Json) : Json :=
  match extract_model body with
  | none => body
  | some m =>
    let model := lowerStr m
    if strContains model "haiku" then body
    else
      match body.get "system" with
      | none => body.setKey "system" (.str requiredSystemPromptStr)
      | some existing =>
        match existing.asStr with
        | some existingStr =>
          if existingStr.startsWith requiredSystemPromptStr then body
          else body.setKey "system"
            (.str (requiredSystemPromptStr ++ " " ++ existingStr))
        | none => body

/-- Claim C8 exactly as stated (a spec-following definition, for
comparison with `inject_system_prompt`): "if the model field lowercased
contains haiku the body is left unchanged; otherwise, if the body has no
system field, system is set to exactly the required prefix string;
otherwise, if system is a string that does not already start with the
prefix, it is replaced with prefix + space + existing; in every other
case the body is left unchanged". A body without a (string) model field
does not satisfy the first condition and so falls into the otherwise
branches. -/
def injectSystemPromptClaimC8 (body : Json) : Json :=
  let haiku : Bool :=
    match extract_model body with
    | some m => strContains (lowerStr m) "haiku"
    | none => false
  if haiku then body
  else
    match body.get "system" with
    | none => body.setKey "system" (.str requiredSystemPromptStr)
    | some existing =>
      match existing.asStr with
      | some existingStr =>
        if existingStr.startsWith requiredSystemPromptStr then body
        else body.setKey "system"
          (.str (requiredSystemPromptStr ++ " " ++ existingStr))
      | none => body

/-- The amended C8 rules as a function: identical to the claim except
that a body whose model field is absent or not a string is left
unchanged (which is what the source does before looking at `system`). -/
def injectSystemPromptAmendedC8 (body : Json) : Json :=
  match extract_model body with
  | none => body
  | some m =>
    if strContains (lowerStr m) "haiku" then body
    else
      match body.get "system" with
      | none => body.setKey "system" (.str requiredSystemPromptStr)
      | some existing =>
        match existing.asStr with
        | some existingStr =>
          if existingStr.startsWith requiredSystemPromptStr then body
          else body.setKey "system"
            (.str (requiredSystemPromptStr ++ " " ++ existingStr))
        | none => body

/-! ## Request pipeline failover logic (services/oauth-proxy/src/proxy.rs)

The failover loop of `proxy_request` in OAuth mode, abstracted over the
upstream: `upstream` maps the selected account id to the upstream
response (status, body). Transport timeouts and connection errors take
separate early-return paths in the source and are not modelled; the
classification dispatch — the subject of the claims — is. The provider's
`classify_error` delegates to `classify_status`, and `report_error`
delegates to the pool. -/

/-- Outcome of the modelled pipeline. `upstreamResp` is a response
returned to the client with the upstream status and body verbatim
(success or error); `poolError` is the 503 produced when
`prepare_request` fails with `PoolExhausted`; `noAttempts` marks the
`unreachable!` at the end of a zero-iteration failover loop. -/
inductive PipeResult where
  | upstreamResp (status : Nat) (body : String)
  | poolError (counts : PoolCounts)
  | noAttempts
deriving DecidableEq, Repr

/-- The failover loop (`for failover in 0..max_failovers`): each
iteration selects an account, sends, and dispatches on the
classification of a 4xx/5xx response. QuotaExceeded reports and moves to
the next account, unless this was the last failover, in which case the
buffered response is returned; Permanent reports and returns the
response verbatim; Transient returns it verbatim. Also returns the pool
and store after the call and the list of account ids a request was sent
with, in order. -/
def pipelineLoop (env : Env) (upstream : String → Nat × String) :
    Nat → PoolState → Store → List String →
    PipeResult × PoolState × Store × List String
  | 0, st, store, tried => (.noAttempts, st, store, tried)
  | fuel + 1, st, store, tried =>
    let out := Pool.select env st store
    match out.result with
    | .error counts => (.poolError counts, out.pool, out.store, tried)
    | .ok sel =>
      let resp := upstream sel.id
      let tried2 := tried ++ [sel.id]
      if 400 ≤ resp.1 ∧ resp.1 ≤ 599 then
        match classify_status resp.1 resp.2 with
        | .QuotaExceeded =>
          let st2 := report_error out.pool sel.id .QuotaExceeded env.now
          match fuel with
          | 0 => (.upstreamResp resp.1 resp.2, st2, out.store, tried2)
          | fuel2 + 1 =>
            pipelineLoop env upstream (fuel2 + 1) st2 out.store tried2
        | .Permanent =>
          let st2 := report_error out.pool sel.id .Permanent env.now
          (.upstreamResp resp.1 resp.2, st2, out.store, tried2)
        | .Transient =>
          (.upstreamResp resp.1 resp.2, out.pool, out.store, tried2)
      else
        (.upstreamResp resp.1 resp.2, out.pool, out.store, tried2)

/-! ## Harness definitions for stating the claims -/

/-- `k` successive `Pool::select` calls, threading pool and store;
collects the results in call order. -/
def selectMany (env : Env) : Nat → PoolState → Store →
    List (Except PoolCounts SelectedAccount) × PoolState × Store
  | 0, st, store => ([], st, store)
  | k + 1, st, store =>
    let out := Pool.select env st store
    let rest := selectMany env k out.pool out.store
    (out.result :: rest.1, rest.2)

/-- The account ids chosen by a list of selection results. -/
def chosenIds (rs : List (Except PoolCounts SelectedAccount)) : List String :=
  rs.filterMap (fun r => match r with | .ok s => some s.id | .error _ => none)

/-- The account id sitting at the pool's current cursor position — the
first account a `Pool::select` call inspects. -/
def idAtCursor (st : PoolState) : String :=
  st.account_ids.getD (st.next_index % st.account_ids.length) ""

/-- An account that must be skipped by selection: Disabled, or
CoolingDown whose deadline has not been reached. -/
def badStatus (env : Env) (statuses : List (String × AccountStatus))
    (id : String) : Prop :=
  mapLookup statuses id = some .Disabled ∨
    ∃ u, mapLookup statuses id = some (.CoolingDown u) ∧ env.now < u

/-- Far-future expiry (the year-2100 value used by the source's tests). -/
def futureExpiry : Nat := 4102444800000

/-- A test credential in the shape the source's tests use. -/
def credFor (id : String) : Credential :=
  { credential_type := "oauth", refresh := "rt_" ++ id,
    access := "at_" ++ id, expires := futureExpiry }

/-- A concrete two-account credential store. -/
def storeAB : Store := [("a", credFor "a"), ("b", credFor "b")]

/-- A concrete environment whose token endpoint is unreachable and whose
clocks read zero. -/
def envQuiet : Env := { net := fun _ => none, now := 0, nowMillis := 0 }

/-- A fresh two-account pool with the source tests' 7200-tick cooldown. -/
def poolAB : PoolState := Pool.new ["a", "b"] 7200

/-- The C8 counterexample body: a request with no `model` field. -/
def bodyNoModel : Json := .obj [("messages", .arr [])]

/-- Characterization of the `classify_429` pattern loop: a first-match
scan over the pattern list equals an any-match test. -/
theorem classify429Go_eq_ite (lower : String) (ps : List String) :
    classify429Go lower ps =
      if ps.any (fun p => strContains lower p) then .QuotaExceeded
      else .Transient := by
  induction ps with
  | nil => simp [classify429Go]
  | cons p rest ih =>
    by_cases h : strContains lower p
    · simp [classify429Go, h]
    · simp [classify429Go, h, ih]

/-- C3: the error classifier is total — for every (status, body) it
returns exactly one of Transient, QuotaExceeded, Permanent — and it
returns QuotaExceeded iff the status is 429 and the lowercased body
contains one of the five quota phrases, Permanent iff the status is 401
or 403, and Transient in every other case (including 429 with an empty
or non-matching body). -/
theorem classifier_policy (status : Nat) (body : String) :
    (classify_status status body = .Transient ∨
      classify_status status body = .QuotaExceeded ∨
      classify_status status body = .Permanent) ∧
    (classify_status status body = .QuotaExceeded ↔
      status = 429 ∧ ∃ p ∈ QUOTA_PATTERNS, strContains (lowerStr body) p = true) ∧
    (classify_status status body = .Permanent ↔ (status = 401 ∨ status = 403)) ∧
    (classify_status status body = .Transient ↔
      (¬(status = 429 ∧ ∃ p ∈ QUOTA_PATTERNS, strContains (lowerStr body) p = true) ∧
        ¬(status = 401 ∨ status = 403))) := by
  have hqm : quotaBodyMatch body = true ↔
      ∃ p ∈ QUOTA_PATTERNS, strContains (lowerStr body) p = true := by
    simp [quotaBodyMatch, List.any_eq_true]
  have hmain : classify_status status body =
      if status = 429 then
        (if quotaBodyMatch body then ErrorClassification.QuotaExceeded
         else ErrorClassification.Transient)
      else if status = 401 ∨ status = 403 then ErrorClassification.Permanent
      else ErrorClassification.Transient := by
    by_cases h1 : status = 429
    · simp [classify_status, h1, classify_429, classify429Go_eq_ite, quotaBodyMatch]
    · by_cases h2 : status = 401 ∨ status = 403
      · simp [classify_status, h1, h2]
      · simp [classify_status, h1, h2]
  rw [hmain]
  by_cases h1 : status = 429
  · subst h1
    by_cases hq : quotaBodyMatch body
    · simp [hq, hqm.mp hq]
    · have hne : ¬ ∃ p ∈ QUOTA_PATTERNS, strContains (lowerStr body) p = true :=
        fun h => hq (hqm.mpr h)
      simp [hq, hne]
  · by_cases h2 : status = 401 ∨ status = 403
    · simp [h1, h2]
    · simp [h1, h2]

/-- One credential survives the serde serialize/deserialize round trip
(all four fields, with the `type` rename). -/
theorem credentialFromJson_toJson (c : Credential) :
    credentialFromJson (credentialToJson c) = some c := rfl

/-- C9: the credential store round trip — serializing any store state as
`write_atomic` does and parsing it back as `load` does yields exactly the
same mapping, every field of every credential preserved. -/
theorem credential_store_roundtrip (m : Store) :
    stateFromJson (stateToJson m) = some m := by
  induction m with
  | nil => rfl
  | cons p rest ih =>
    have ih2 : credListFromJson (rest.map (fun q => (q.1, credentialToJson q.2))) =
        some rest := ih
    simp [stateToJson, stateFromJson, List.map_cons, credListFromJson,
      credentialFromJson_toJson, ih2]

/-- C8 counterexample: on a body with no `model` field the claim's rules
demand that `system` be set to the required prefix, but the source
returns the body unchanged (mirroring the source's own test
`inject_no_model_field_skipped`). -/
theorem inject_claim_counterexample :
    inject_system_prompt bodyNoModel = bodyNoModel ∧
    bodyNoModel.get "system" = none ∧
    (injectSystemPromptClaimC8 bodyNoModel).get "system" =
      some (.str requiredSystemPromptStr) ∧
    injectSystemPromptClaimC8 bodyNoModel ≠ inject_system_prompt bodyNoModel := by
  refine ⟨rfl, rfl, rfl, ?_⟩
  intro h
  have h2 : some (Json.str requiredSystemPromptStr) = (none : Option Json) := by
    calc some (Json.str requiredSystemPromptStr)
        = (injectSystemPromptClaimC8 bodyNoModel).get "system" := by rfl
      _ = (inject_system_prompt bodyNoModel).get "system" := by rw [h]
      _ = none := by rfl
  exact Option.noConfusion h2

/-- C8 (amended): system prompt injection case analysis — a body whose
model field is absent or not a string is left unchanged; a model
containing "haiku" (lowercased) is left unchanged; otherwise a missing
`system` field is set to exactly the required prefix string; an existing
string `system` not starting with the prefix is replaced by
prefix + space + existing; in every other case (prefix already present,
or non-string `system`) the body is unchanged. -/
theorem inject_system_prompt_cases (body : Json) :
    (extract_model body = none → inject_system_prompt body = body) ∧
    (∀ m, extract_model body = some m → strContains (lowerStr m) "haiku" = true →
      inject_system_prompt body = body) ∧
    (∀ m, extract_model body = some m → strContains (lowerStr m) "haiku" = false →
      body.get "system" = none →
      inject_system_prompt body = body.setKey "system" (.str requiredSystemPromptStr)) ∧
    (∀ m ex s, extract_model body = some m →
      strContains (lowerStr m) "haiku" = false →
      body.get "system" = some ex → ex.asStr = some s →
      s.startsWith requiredSystemPromptStr = false →
      inject_system_prompt body =
        body.setKey "system" (.str (requiredSystemPromptStr ++ " " ++ s))) ∧
    (∀ m ex s, extract_model body = some m →
      strContains (lowerStr m) "haiku" = false →
      body.get "system" = some ex → ex.asStr = some s →
      s.startsWith requiredSystemPromptStr = true →
      inject_system_prompt body = body) ∧
    (∀ m ex, extract_model body = some m →
      strContains (lowerStr m) "haiku" = false →
      body.get "system" = some ex → ex.asStr = none →
      inject_system_prompt body = body) := by
  refine ⟨?_, ?_, ?_, ?_, ?_, ?_⟩
  · intro h; simp [inject_system_prompt, h]
  · intro m hm hh; simp [inject_system_prompt, hm, hh]
  · intro m hm hh hs; simp [inject_system_prompt, hm, hh, hs]
  · intro m ex s hm hh hs hstr hpre
    simp [inject_system_prompt, hm, hh, hs, hstr, hpre]
  · intro m ex s hm hh hs hstr hpre
    simp [inject_system_prompt, hm, hh, hs, hstr, hpre]
  · intro m ex hm hh hs hstr
    simp [inject_system_prompt, hm, hh, hs, hstr]

/-- Witness for the amended C8 theorem: a Sonnet-style body with no
system field gets exactly the prefix; a Haiku body is untouched. -/
theorem inject_system_prompt_cases_witness :
    inject_system_prompt (Json.obj [("model", .str "claude-opus-4"), ("messages", .arr [])]) =
      (Json.obj [("model", .str "claude-opus-4"), ("messages", .arr [])]).setKey
        "system" (.str requiredSystemPromptStr) ∧
    inject_system_prompt (Json.obj [("model", .str "claude-3-5-Haiku-20241022")]) =
      Json.obj [("model", .str "claude-3-5-Haiku-20241022")] :=
  ⟨(inject_system_prompt_cases
      (Json.obj [("model", .str "claude-opus-4"), ("messages", .arr [])])).2.2.1
        "claude-opus-4" rfl rfl rfl,
   (inject_system_prompt_cases
      (Json.obj [("model", .str "claude-3-5-Haiku-20241022")])).2.1
        "claude-3-5-Haiku-20241022" rfl rfl⟩


theorem inspectStatus_available {env : Env} {statuses : List (String × AccountStatus)} {id : String}
    (h : mapLookup statuses id = some .Available) :
    inspectStatus env statuses id = (true, statuses) := by
  simp [inspectStatus, h]

theorem inspectStatus_cooling_active {env : Env} {statuses : List (String × AccountStatus)} {id : String} {u : Nat}
    (h : mapLookup statuses id = some (.CoolingDown u)) (hu : env.now < u) :
    inspectStatus env statuses id = (false, statuses) := by
  have h2 : ¬ u ≤ env.now := by omega
  simp [inspectStatus, h, h2]

theorem inspectStatus_cooling_expired {env : Env} {statuses : List (String × AccountStatus)} {id : String} {u : Nat}
    (h : mapLookup statuses id = some (.CoolingDown u)) (hu : u ≤ env.now) :
    inspectStatus env statuses id = (true, mapInsert statuses id .Available) := by
  simp [inspectStatus, h, hu]

theorem inspectStatus_disabled {env : Env} {statuses : List (String × AccountStatus)} {id : String}
    (h : mapLookup statuses id = some .Disabled) :
    inspectStatus env statuses id = (false, statuses) := by
  simp [inspectStatus, h]

theorem inspectStatus_missing {env : Env} {statuses : List (String × AccountStatus)} {id : String}
    (h : mapLookup statuses id = none) :
    inspectStatus env statuses id = (false, statuses) := by
  simp [inspectStatus, h]

theorem selectLoop_step_skip {env : Env} {ids : List String} {n start offset fuel : Nat}
    {statuses sts1 : List (String × AccountStatus)} {store : Store}
    (h : inspectStatus env statuses (ids.getD ((start + offset) % n) "") = (false, sts1)) :
    selectLoop env ids n start offset (fuel + 1) statuses store =
      selectLoop env ids n start (offset + 1) fuel sts1 store := by
  simp only [selectLoop, h]
  simp

theorem selectLoop_step_nostore {env : Env} {ids : List String} {n start offset fuel : Nat}
    {statuses sts1 : List (String × AccountStatus)} {store : Store}
    (h : inspectStatus env statuses (ids.getD ((start + offset) % n) "") = (true, sts1))
    (hs : storeGet store (ids.getD ((start + offset) % n) "") = none) :
    selectLoop env ids n start offset (fuel + 1) statuses store =
      selectLoop env ids n start (offset + 1) fuel
        (mapInsert sts1 (ids.getD ((start + offset) % n) "") .Disabled) store := by
  simp only [selectLoop, h, hs]
  simp

theorem selectLoop_step_fresh {env : Env} {ids : List String} {n start offset fuel : Nat}
    {statuses sts1 : List (String × AccountStatus)} {store : Store} {c : Credential}
    (h : inspectStatus env statuses (ids.getD ((start + offset) % n) "") = (true, sts1))
    (hs : storeGet store (ids.getD ((start + offset) % n) "") = some c)
    (hexp : env.nowMillis + 60000 < c.expires) :
    selectLoop env ids n start offset (fuel + 1) statuses store =
      (some { id := ids.getD ((start + offset) % n) "", access_token := c.access },
       sts1, store) := by
  have h2 : ¬ c.expires ≤ env.nowMillis + 60000 := by omega
  simp only [selectLoop, h, hs, h2]
  simp

theorem selectLoop_step_refresh_ok {env : Env} {ids : List String} {n start offset fuel : Nat}
    {statuses sts1 : List (String × AccountStatus)} {store : Store} {c : Credential}
    {tr : TokenResponse}
    (h : inspectStatus env statuses (ids.getD ((start + offset) % n) "") = (true, sts1))
    (hs : storeGet store (ids.getD ((start + offset) % n) "") = some c)
    (hexp : c.expires ≤ env.nowMillis + 60000)
    (hr : attemptRefresh env.net c.refresh = .ok tr) :
    selectLoop env ids n start offset (fuel + 1) statuses store =
      (some { id := ids.getD ((start + offset) % n) "", access_token := tr.access_token },
       sts1,
       storeUpdateToken store (ids.getD ((start + offset) % n) "") tr.access_token
         tr.refresh_token (env.nowMillis + tr.expires_in * 1000)) := by
  simp only [selectLoop, h, hs, hexp, hr]
  simp

theorem selectLoop_step_refresh_err {env : Env} {ids : List String} {n start offset fuel : Nat}
    {statuses sts1 : List (String × AccountStatus)} {store : Store} {c : Credential}
    {e : AuthError}
    (h : inspectStatus env statuses (ids.getD ((start + offset) % n) "") = (true, sts1))
    (hs : storeGet store (ids.getD ((start + offset) % n) "") = some c)
    (hexp : c.expires ≤ env.nowMillis + 60000)
    (hr : attemptRefresh env.net c.refresh = .error e) :
    selectLoop env ids n start offset (fuel + 1) statuses store =
      selectLoop env ids n start (offset + 1) fuel
        (mapInsert sts1 (ids.getD ((start + offset) % n) "") .Disabled) store := by
  simp only [selectLoop, h, hs, hexp, hr]
  simp

theorem badStatus_insert_ne {env : Env} {statuses : List (String × AccountStatus)}
    {id k : String} {v : AccountStatus} (hne : k ≠ id) (h : badStatus env statuses id) :
    badStatus env (mapInsert statuses k v) id := by
  rcases h with h | ⟨u, h, hu⟩
  · exact Or.inl (by rw [mapLookup_insert_ne _ _ _ _ hne]; exact h)
  · exact Or.inr ⟨u, by rw [mapLookup_insert_ne _ _ _ _ hne]; exact h, hu⟩

theorem selectLoop_skips_bad (env : Env) (ids : List String) (n start : Nat) :
    ∀ (fuel offset : Nat) (statuses : List (String × AccountStatus)) (store : Store)
      (id : String), badStatus env statuses id →
      badStatus env (selectLoop env ids n start offset fuel statuses store).2.1 id ∧
      (∀ sel, (selectLoop env ids n start offset fuel statuses store).1 = some sel →
        sel.id ≠ id) := by
  intro fuel
  induction fuel with
  | zero =>
    intro offset statuses store id hbad
    exact ⟨hbad, fun sel h => by simp [selectLoop] at h⟩
  | succ fuel ih =>
    intro offset statuses store id hbad
    have key : ∀ sts1,
        inspectStatus env statuses (ids.getD ((start + offset) % n) "") = (true, sts1) →
        badStatus env sts1 id → ids.getD ((start + offset) % n) "" ≠ id →
        badStatus env (selectLoop env ids n start offset (fuel + 1) statuses store).2.1 id ∧
        (∀ sel, (selectLoop env ids n start offset (fuel + 1) statuses store).1 = some sel →
          sel.id ≠ id) := by
      intro sts1 hin hb1 hne
      rcases hsg : storeGet store (ids.getD ((start + offset) % n) "") with _ | c
      · rw [selectLoop_step_nostore hin hsg]
        exact ih _ _ _ _ (badStatus_insert_ne hne hb1)
      · by_cases hexp : c.expires ≤ env.nowMillis + 60000
        · rcases hr : attemptRefresh env.net c.refresh with e | tr
          · rw [selectLoop_step_refresh_err hin hsg hexp hr]
            exact ih _ _ _ _ (badStatus_insert_ne hne hb1)
          · rw [selectLoop_step_refresh_ok hin hsg hexp hr]
            refine ⟨hb1, ?_⟩
            intro sel h
            have h2 : SelectedAccount.mk (ids.getD ((start + offset) % n) "")
                tr.access_token = sel := Option.some.inj h
            rw [← h2]
            exact hne
        · rw [selectLoop_step_fresh hin hsg (by omega)]
          refine ⟨hb1, ?_⟩
          intro sel h
          have h2 : SelectedAccount.mk (ids.getD ((start + offset) % n) "")
              c.access = sel := Option.some.inj h
          rw [← h2]
          exact hne
    rcases hst : mapLookup statuses (ids.getD ((start + offset) % n) "") with _ | st
    · rw [selectLoop_step_skip (inspectStatus_missing hst)]
      exact ih _ _ _ _ hbad
    · cases st with
      | Available =>
        have hne : ids.getD ((start + offset) % n) "" ≠ id := by
          intro he
          rw [he] at hst
          rcases hbad with h | ⟨u, h, _⟩ <;> rw [h] at hst <;> simp at hst
        exact key statuses (inspectStatus_available hst) hbad hne
      | CoolingDown u =>
        by_cases hu : u ≤ env.now
        · have hne : ids.getD ((start + offset) % n) "" ≠ id := by
            intro he
            rw [he] at hst
            rcases hbad with h | ⟨u2, h, hu2⟩
            · rw [h] at hst; simp at hst
            · rw [h] at hst
              have hu3 : u2 = u := by simpa using hst
              omega
          exact key _ (inspectStatus_cooling_expired hst hu)
            (badStatus_insert_ne hne hbad) hne
        · rw [selectLoop_step_skip (inspectStatus_cooling_active hst (by omega))]
          exact ih _ _ _ _ hbad
      | Disabled =>
        rw [selectLoop_step_skip (inspectStatus_disabled hst)]
        exact ih _ _ _ _ hbad

theorem selectLoop_keeps_disabled (env : Env) (ids : List String) (n start : Nat) :
    ∀ (fuel offset : Nat) (statuses : List (String × AccountStatus)) (store : Store)
      (id : String), mapLookup statuses id = some .Disabled →
      mapLookup (selectLoop env ids n start offset fuel statuses store).2.1 id =
        some .Disabled := by
  intro fuel
  induction fuel with
  | zero => intro offset statuses store id h; simpa [selectLoop] using h
  | succ fuel ih =>
    intro offset statuses store id hdis
    by_cases hne : ids.getD ((start + offset) % n) "" = id
    · rw [selectLoop_step_skip (inspectStatus_disabled (by rw [hne]; exact hdis))]
      exact ih _ _ _ _ hdis
    · rcases hst : mapLookup statuses (ids.getD ((start + offset) % n) "") with _ | st
      · rw [selectLoop_step_skip (inspectStatus_missing hst)]
        exact ih _ _ _ _ hdis
      · cases st with
        | Disabled =>
          rw [selectLoop_step_skip (inspectStatus_disabled hst)]
          exact ih _ _ _ _ hdis
        | Available =>
          rcases hsg : storeGet store (ids.getD ((start + offset) % n) "") with _ | c
          · rw [selectLoop_step_nostore (inspectStatus_available hst) hsg]
            exact ih _ _ _ _ (by rw [mapLookup_insert_ne _ _ _ _ hne]; exact hdis)
          · by_cases hexp : c.expires ≤ env.nowMillis + 60000
            · rcases hr : attemptRefresh env.net c.refresh with e | tr
              · rw [selectLoop_step_refresh_err (inspectStatus_available hst) hsg hexp hr]
                exact ih _ _ _ _ (by rw [mapLookup_insert_ne _ _ _ _ hne]; exact hdis)
              · rw [selectLoop_step_refresh_ok (inspectStatus_available hst) hsg hexp hr]
                exact hdis
            · rw [selectLoop_step_fresh (inspectStatus_available hst) hsg (by omega)]
              exact hdis
        | CoolingDown u =>
          by_cases hu : u ≤ env.now
          · have hd1 : mapLookup
                (mapInsert statuses (ids.getD ((start + offset) % n) "") .Available) id =
                some .Disabled := by
              rw [mapLookup_insert_ne _ _ _ _ hne]; exact hdis
            rcases hsg : storeGet store (ids.getD ((start + offset) % n) "") with _ | c
            · rw [selectLoop_step_nostore (inspectStatus_cooling_expired hst hu) hsg]
              exact ih _ _ _ _ (by rw [mapLookup_insert_ne _ _ _ _ hne]; exact hd1)
            · by_cases hexp : c.expires ≤ env.nowMillis + 60000
              · rcases hr : attemptRefresh env.net c.refresh with e | tr
                · rw [selectLoop_step_refresh_err
                    (inspectStatus_cooling_expired hst hu) hsg hexp hr]
                  exact ih _ _ _ _ (by rw [mapLookup_insert_ne _ _ _ _ hne]; exact hd1)
                · rw [selectLoop_step_refresh_ok
                    (inspectStatus_cooling_expired hst hu) hsg hexp hr]
                  exact hd1
              · rw [selectLoop_step_fresh
                  (inspectStatus_cooling_expired hst hu) hsg (by omega)]
                exact hd1
          · rw [selectLoop_step_skip (inspectStatus_cooling_active hst (by omega))]
            exact ih _ _ _ _ hdis

theorem select_result_ne_of_bad {env : Env} {st : PoolState} {store : Store} {id : String}
    (hbad : badStatus env st.statuses id) :
    ∀ sel, (Pool.select env st store).result = .ok sel → sel.id ≠ id := by
  intro sel h
  by_cases hn : st.account_ids.length = 0
  · simp [Pool.select, hn] at h
  · rcases hloop : selectLoop env st.account_ids st.account_ids.length
        (st.next_index % st.account_ids.length) 0 st.account_ids.length st.statuses store
      with ⟨o, sts2, store2⟩
    have hsel := (selectLoop_skips_bad env st.account_ids st.account_ids.length
        (st.next_index % st.account_ids.length) st.account_ids.length 0
        st.statuses store id hbad).2
    rw [hloop] at hsel
    simp only [Pool.select, if_neg hn, hloop] at h
    cases o with
    | none => simp [selectFinish] at h
    | some sel2 =>
      simp only [selectFinish] at h
      have h2 : sel2 = sel := by simpa using h
      rw [← h2]
      exact hsel sel2 rfl

theorem select_keeps_disabled {env : Env} {st : PoolState} {store : Store} {id : String}
    (h : mapLookup st.statuses id = some .Disabled) :
    mapLookup (Pool.select env st store).pool.statuses id = some .Disabled := by
  by_cases hn : st.account_ids.length = 0
  · simpa [Pool.select, hn] using h
  · rcases hloop : selectLoop env st.account_ids st.account_ids.length
        (st.next_index % st.account_ids.length) 0 st.account_ids.length st.statuses store
      with ⟨o, sts2, store2⟩
    have hk := selectLoop_keeps_disabled env st.account_ids st.account_ids.length
        (st.next_index % st.account_ids.length) st.account_ids.length 0
        st.statuses store id h
    rw [hloop] at hk
    cases o <;> simp only [Pool.select, if_neg hn, hloop, selectFinish] <;> exact hk

theorem select_all_available (env : Env) (st : PoolState) (store : Store)
    (hne : st.account_ids ≠ [])
    (hav : ∀ id ∈ st.account_ids, mapLookup st.statuses id = some .Available)
    (hcred : ∀ id ∈ st.account_ids, ∃ c, storeGet store id = some c ∧
        env.nowMillis + 60000 < c.expires) :
    ∃ c, storeGet store (idAtCursor st) = some c ∧
      env.nowMillis + 60000 < c.expires ∧
      Pool.select env st store =
        { result := .ok { id := idAtCursor st, access_token := c.access },
          pool := { st with next_index := st.next_index + 1 }, store := store } := by
  have hn : st.account_ids.length ≠ 0 := by
    simpa [List.length_eq_zero] using hne
  obtain ⟨m, hm⟩ : ∃ m, st.account_ids.length = m + 1 :=
    ⟨st.account_ids.length - 1, by omega⟩
  have hlt : st.next_index % st.account_ids.length < st.account_ids.length :=
    Nat.mod_lt _ (by omega)
  have hmem : idAtCursor st ∈ st.account_ids := by
    rw [idAtCursor, List.getD_eq_getElem _ _ hlt]
    exact List.getElem_mem _
  obtain ⟨c, hsg, hexp⟩ := hcred _ hmem
  have hstat := hav _ hmem
  have hgetd : st.account_ids.getD ((st.next_index % st.account_ids.length + 0) %
      st.account_ids.length) "" = idAtCursor st := by
    rw [Nat.add_zero, Nat.mod_mod_of_dvd _ dvd_rfl]; rfl
  refine ⟨c, hsg, hexp, ?_⟩
  have hstep := @selectLoop_step_fresh env st.account_ids st.account_ids.length
      (st.next_index % st.account_ids.length) 0 m st.statuses st.statuses store c
      (by rw [hgetd]; exact inspectStatus_available hstat)
      (by rw [hgetd]; exact hsg) hexp
  rw [hgetd] at hstep
  simp only [Pool.select, if_neg hn]
  rw [show st.account_ids.length = m + 1 from hm] at hstep ⊢
  rw [hstep]
  rfl

theorem selectMany_all_available (env : Env) (store : Store)
    (ids : List String) (statuses : List (String × AccountStatus)) (cd : Nat)
    (hne : ids ≠ [])
    (hav : ∀ id ∈ ids, mapLookup statuses id = some .Available)
    (hcred : ∀ id ∈ ids, ∃ c, storeGet store id = some c ∧
        env.nowMillis + 60000 < c.expires) :
    ∀ (k cursor : Nat),
      chosenIds (selectMany env k ⟨ids, statuses, cursor, cd⟩ store).1 =
        (List.range k).map (fun i => ids.getD ((cursor + i) % ids.length) "") ∧
      (selectMany env k ⟨ids, statuses, cursor, cd⟩ store).2.1 =
        ⟨ids, statuses, cursor + k, cd⟩ ∧
      (selectMany env k ⟨ids, statuses, cursor, cd⟩ store).2.2 = store ∧
      (∀ r ∈ (selectMany env k ⟨ids, statuses, cursor, cd⟩ store).1,
        ∃ sel, r = .ok sel) := by
  intro k
  induction k with
  | zero =>
    intro cursor
    exact ⟨rfl, by simp [selectMany], rfl, by simp [selectMany]⟩
  | succ k ih =>
    intro cursor
    obtain ⟨c, hsg, hexp, hsel⟩ :=
      select_all_available env ⟨ids, statuses, cursor, cd⟩ store hne hav hcred
    obtain ⟨ih1, ih2, ih3, ih4⟩ := ih (cursor + 1)
    refine ⟨?_, ?_, ?_, ?_⟩
    · simp only [selectMany, hsel, chosenIds, List.filterMap_cons]
      rw [← chosenIds]
      show idAtCursor ⟨ids, statuses, cursor, cd⟩ ::
          chosenIds (selectMany env k ⟨ids, statuses, cursor + 1, cd⟩ store).1 = _
      rw [ih1, List.range_succ_eq_map, List.map_cons, List.map_map]
      rw [List.cons_eq_cons]
      refine ⟨by simp [idAtCursor], ?_⟩
      refine List.map_congr_left ?_
      intro i _
      simp only [Function.comp]
      have hci : cursor + 1 + i = cursor + (i + 1) := by omega
      rw [hci]
    · simp only [selectMany, hsel]
      rw [ih2]
      have hck : cursor + 1 + k = cursor + (k + 1) := by omega
      rw [hck]
    · simp only [selectMany, hsel]
      exact ih3
    · intro r hr
      simp only [selectMany, hsel, List.mem_cons] at hr
      rcases hr with rfl | hr
      · exact ⟨_, rfl⟩
      · exact ih4 r hr

theorem rangeMap_mod_eq_rotate (ids : List String) (c : Nat) (hne : ids ≠ []) :
    (List.range ids.length).map (fun i => ids.getD ((c + i) % ids.length) "") =
      ids.rotate (c % ids.length) := by
  have hn : 0 < ids.length := List.length_pos.mpr hne
  apply List.ext_getElem
  · simp
  · intro i h1 h2
    simp only [List.getElem_map, List.getElem_range]
    rw [List.getElem_rotate]
    have hmod : (c + i) % ids.length = (i + c % ids.length) % ids.length := by
      rw [Nat.add_comm c i, ← Nat.add_mod_mod]
    rw [hmod, List.getD_eq_getElem _ _ (Nat.mod_lt _ hn)]

/-- C1: round-robin selection over a pool of all-Available accounts with
far-future credentials — successive selects return account ids cyclically
in insertion order starting from the current cursor; any run of `n`
consecutive selects chooses each account exactly once (the chosen ids
are a permutation of the pool); and the fresh two-account pool
["a", "b"] yields "a", "b", "a" over three selects. -/
theorem round_robin_selection (env : Env) (store : Store) (ids : List String)
    (statuses : List (String × AccountStatus)) (cd cursor : Nat)
    (hne : ids ≠ [])
    (hav : ∀ id ∈ ids, mapLookup statuses id = some .Available)
    (hcred : ∀ id ∈ ids, ∃ c, storeGet store id = some c ∧
        env.nowMillis + 60000 < c.expires) :
    (∀ k, chosenIds (selectMany env k ⟨ids, statuses, cursor, cd⟩ store).1 =
        (List.range k).map (fun i => ids.getD ((cursor + i) % ids.length) "")) ∧
    (∀ k, ∀ r ∈ (selectMany env k ⟨ids, statuses, cursor, cd⟩ store).1,
        ∃ sel, r = .ok sel) ∧
    List.Perm (chosenIds (selectMany env ids.length ⟨ids, statuses, cursor, cd⟩ store).1) ids ∧
    (ids.Nodup → ∀ id ∈ ids,
      List.count id (chosenIds (selectMany env ids.length ⟨ids, statuses, cursor, cd⟩ store).1) = 1) ∧
    chosenIds (selectMany envQuiet 3 poolAB storeAB).1 = ["a", "b", "a"] := by
  have h := selectMany_all_available env store ids statuses cd hne hav hcred
  have hperm : List.Perm
      (chosenIds (selectMany env ids.length ⟨ids, statuses, cursor, cd⟩ store).1) ids := by
    rw [(h ids.length cursor).1, rangeMap_mod_eq_rotate ids cursor hne]
    exact List.rotate_perm ids _
  refine ⟨fun k => (h k cursor).1, fun k => (h k cursor).2.2.2, hperm, ?_, rfl⟩
  intro hnodup id hid
  rw [hperm.count_eq id]
  exact List.count_eq_one_of_mem hnodup hid

/-- Witness for C1 at the concrete two-account pool. -/
theorem round_robin_selection_witness :
    chosenIds (selectMany envQuiet 3 poolAB storeAB).1 = ["a", "b", "a"] ∧
    List.Perm (chosenIds (selectMany envQuiet 2 poolAB storeAB).1) ["a", "b"] := by
  have h := round_robin_selection envQuiet storeAB ["a", "b"]
      [("a", .Available), ("b", .Available)] 7200 0 (by decide)
      (by intro id hid
          simp only [List.mem_cons, List.not_mem_nil, or_false] at hid
          rcases hid with rfl | rfl <;> rfl)
      (by intro id hid
          simp only [List.mem_cons, List.not_mem_nil, or_false] at hid
          rcases hid with rfl | rfl
          · exact ⟨credFor "a", rfl, by decide⟩
          · exact ⟨credFor "b", rfl, by decide⟩)
  exact ⟨h.2.2.2.2, h.2.2.1⟩

theorem select_cooldown_expired (env : Env) (st : PoolState) (store : Store)
    {u : Nat} {c : Credential}
    (hn : st.account_ids.length ≠ 0)
    (hcool : mapLookup st.statuses (idAtCursor st) = some (.CoolingDown u))
    (hu : u ≤ env.now)
    (hsg : storeGet store (idAtCursor st) = some c)
    (hexp : env.nowMillis + 60000 < c.expires) :
    Pool.select env st store =
      { result := .ok { id := idAtCursor st, access_token := c.access },
        pool := { st with
                  next_index := st.next_index + 1,
                  statuses := mapInsert st.statuses (idAtCursor st) .Available },
        store := store } := by
  obtain ⟨m, hm⟩ : ∃ m, st.account_ids.length = m + 1 :=
    ⟨st.account_ids.length - 1, by omega⟩
  have hgetd : st.account_ids.getD ((st.next_index % st.account_ids.length + 0) %
      st.account_ids.length) "" = idAtCursor st := by
    rw [Nat.add_zero, Nat.mod_mod_of_dvd _ dvd_rfl]; rfl
  have hstep := @selectLoop_step_fresh env st.account_ids st.account_ids.length
      (st.next_index % st.account_ids.length) 0 m st.statuses
      (mapInsert st.statuses (idAtCursor st) .Available) store c
      (by rw [hgetd]; exact inspectStatus_cooling_expired hcool hu)
      (by rw [hgetd]; exact hsg) hexp
  rw [hgetd] at hstep
  simp only [Pool.select, if_neg hn]
  rw [show st.account_ids.length = m + 1 from hm] at hstep ⊢
  rw [hstep]
  rfl

/-- C2: no select call ever returns an account that is Disabled or still
cooling down (CoolingDown with now < until); and when select inspects the
cursor account in CoolingDown state whose deadline has passed, it
transitions that account to Available and treats it as eligible,
returning it. -/
theorem select_skips_cooling_and_disabled (env : Env) (st : PoolState) (store : Store) :
    (∀ id u sel, mapLookup st.statuses id = some (.CoolingDown u) → env.now < u →
      (Pool.select env st store).result = .ok sel → sel.id ≠ id) ∧
    (∀ id sel, mapLookup st.statuses id = some .Disabled →
      (Pool.select env st store).result = .ok sel → sel.id ≠ id) ∧
    (∀ u c, st.account_ids.length ≠ 0 →
      mapLookup st.statuses (idAtCursor st) = some (.CoolingDown u) → u ≤ env.now →
      storeGet store (idAtCursor st) = some c → env.nowMillis + 60000 < c.expires →
      (Pool.select env st store).result =
        .ok { id := idAtCursor st, access_token := c.access } ∧
      mapLookup (Pool.select env st store).pool.statuses (idAtCursor st) =
        some .Available) := by
  refine ⟨?_, ?_, ?_⟩
  · intro id u sel hc hu h
    exact select_result_ne_of_bad (Or.inr ⟨u, hc, hu⟩) sel h
  · intro id sel hd h
    exact select_result_ne_of_bad (Or.inl hd) sel h
  · intro u c hn hcool hu hsg hexp
    rw [select_cooldown_expired env st store hn hcool hu hsg hexp]
    exact ⟨rfl, mapLookup_insert_self _ _ _⟩

/-- Witness for C2: a pool whose cursor account has an expired cooldown
returns that account and marks it Available; a pool with an unexpired
cooldown on "a" selects "b" instead. -/
theorem select_skips_cooling_and_disabled_witness :
    (Pool.select { net := fun _ => none, now := 10, nowMillis := 0 }
        { account_ids := ["a"], statuses := [("a", .CoolingDown 5)],
          next_index := 0, cooldown_duration := 7200 } storeAB).result =
      .ok { id := "a", access_token := "at_a" } ∧
    mapLookup (Pool.select { net := fun _ => none, now := 10, nowMillis := 0 }
        { account_ids := ["a"], statuses := [("a", .CoolingDown 5)],
          next_index := 0, cooldown_duration := 7200 } storeAB).pool.statuses "a" =
      some .Available ∧
    ("b" : String) ≠ "a" := by
  have h := (select_skips_cooling_and_disabled
      { net := fun _ => none, now := 10, nowMillis := 0 }
      { account_ids := ["a"], statuses := [("a", .CoolingDown 5)],
        next_index := 0, cooldown_duration := 7200 } storeAB).2.2 5 (credFor "a")
      (by decide) rfl (by decide) rfl (by decide)
  have h2 := (select_skips_cooling_and_disabled
      { net := fun _ => none, now := 10, nowMillis := 0 }
      { account_ids := ["a", "b"], statuses := [("a", .CoolingDown 100), ("b", .Available)],
        next_index := 0, cooldown_duration := 7200 } storeAB).1 "a" 100
      { id := "b", access_token := "at_b" } rfl (by decide) rfl
  exact ⟨h.1, h.2, h2⟩

/-- C4: the inline refresh boundary at the cursor account — with a
credential expiring more than 60 s from now no refresh occurs and the
stored access token is returned; with a credential within 60 s of expiry
a refresh is attempted: on success the new triple is persisted to the
store and the newly issued access token is returned, on failure the
account is transitioned to Disabled and the scan continues with the next
account. -/
theorem select_inline_refresh (env : Env) (st : PoolState) (store : Store) (c : Credential)
    (hn : st.account_ids.length ≠ 0)
    (hav : mapLookup st.statuses (idAtCursor st) = some .Available)
    (hsg : storeGet store (idAtCursor st) = some c) :
    (env.nowMillis + 60000 < c.expires →
      Pool.select env st store =
        { result := .ok { id := idAtCursor st, access_token := c.access },
          pool := { st with next_index := st.next_index + 1 }, store := store }) ∧
    (∀ tr, c.expires ≤ env.nowMillis + 60000 →
      attemptRefresh env.net c.refresh = .ok tr →
      Pool.select env st store =
        { result := .ok { id := idAtCursor st, access_token := tr.access_token },
          pool := { st with next_index := st.next_index + 1 },
          store := storeUpdateToken store (idAtCursor st) tr.access_token tr.refresh_token
            (env.nowMillis + tr.expires_in * 1000) } ∧
      storeGet (storeUpdateToken store (idAtCursor st) tr.access_token tr.refresh_token
          (env.nowMillis + tr.expires_in * 1000)) (idAtCursor st) =
        some { c with
               access := tr.access_token,
               refresh := tr.refresh_token,
               expires := env.nowMillis + tr.expires_in * 1000 }) ∧
    (∀ e, c.expires ≤ env.nowMillis + 60000 →
      attemptRefresh env.net c.refresh = .error e →
      Pool.select env st store =
        selectFinish env { st with next_index := st.next_index + 1 }
          (selectLoop env st.account_ids st.account_ids.length
            (st.next_index % st.account_ids.length) 1 (st.account_ids.length - 1)
            (mapInsert st.statuses (idAtCursor st) .Disabled) store) ∧
      mapLookup (mapInsert st.statuses (idAtCursor st) .Disabled) (idAtCursor st) =
        some .Disabled) := by
  obtain ⟨m, hm⟩ : ∃ m, st.account_ids.length = m + 1 :=
    ⟨st.account_ids.length - 1, by omega⟩
  have hgetd : st.account_ids.getD ((st.next_index % st.account_ids.length + 0) %
      st.account_ids.length) "" = idAtCursor st := by
    rw [Nat.add_zero, Nat.mod_mod_of_dvd _ dvd_rfl]; rfl
  refine ⟨?_, ?_, ?_⟩
  · intro hexp
    have hstep := @selectLoop_step_fresh env st.account_ids st.account_ids.length
        (st.next_index % st.account_ids.length) 0 m st.statuses st.statuses store c
        (by rw [hgetd]; exact inspectStatus_available hav) (by rw [hgetd]; exact hsg) hexp
    rw [hgetd] at hstep
    simp only [Pool.select, if_neg hn]
    rw [show st.account_ids.length = m + 1 from hm] at hstep ⊢
    rw [hstep]
    rfl
  · intro tr hexp hr
    have hstep := @selectLoop_step_refresh_ok env st.account_ids st.account_ids.length
        (st.next_index % st.account_ids.length) 0 m st.statuses st.statuses store c tr
        (by rw [hgetd]; exact inspectStatus_available hav) (by rw [hgetd]; exact hsg)
        hexp hr
    rw [hgetd] at hstep
    constructor
    · simp only [Pool.select, if_neg hn]
      rw [show st.account_ids.length = m + 1 from hm] at hstep ⊢
      rw [hstep]
      rfl
    · have hsg2 : mapLookup store (idAtCursor st) = some c := hsg
      simp only [storeGet, storeUpdateToken, hsg2]
      exact mapLookup_insert_self _ _ _
  · intro e hexp hr
    have hstep := @selectLoop_step_refresh_err env st.account_ids st.account_ids.length
        (st.next_index % st.account_ids.length) 0 m st.statuses st.statuses store c e
        (by rw [hgetd]; exact inspectStatus_available hav) (by rw [hgetd]; exact hsg)
        hexp hr
    rw [hgetd] at hstep
    constructor
    · simp only [Pool.select, if_neg hn]
      rw [show st.account_ids.length = m + 1 from hm] at hstep ⊢
      rw [hstep]
      simp only [Nat.add_sub_cancel]
    · exact mapLookup_insert_self _ _ _

/-- Witness for C4 covering all three branches at concrete inputs:
far-future expiry returns the stored token with no store change; a
soon-expiring credential with a working token endpoint returns the newly
issued token and persists the new triple; a soon-expiring credential
with an unreachable endpoint disables the account and the scan goes on
(here exhausting a one-account pool). -/
theorem select_inline_refresh_witness :
    (Pool.select envQuiet
        { account_ids := ["a"], statuses := [("a", .Available)],
          next_index := 0, cooldown_duration := 7200 } storeAB).result =
      .ok { id := "a", access_token := "at_a" } ∧
    (Pool.select
        { net := fun _ => some
            { status := 200, body := "",
              json := some
                { access_token := "at_new", refresh_token := "rt_new",
                  expires_in := 3600 } },
          now := 0, nowMillis := 100000 }
        { account_ids := ["a"], statuses := [("a", .Available)],
          next_index := 0, cooldown_duration := 7200 }
        [("a", { credential_type := "oauth", refresh := "rt_a", access := "at_a",
                 expires := 100 })]).result =
      .ok { id := "a", access_token := "at_new" } ∧
    storeGet (Pool.select
        { net := fun _ => some
            { status := 200, body := "",
              json := some
                { access_token := "at_new", refresh_token := "rt_new",
                  expires_in := 3600 } },
          now := 0, nowMillis := 100000 }
        { account_ids := ["a"], statuses := [("a", .Available)],
          next_index := 0, cooldown_duration := 7200 }
        [("a", { credential_type := "oauth", refresh := "rt_a", access := "at_a",
                 expires := 100 })]).store "a" =
      some { credential_type := "oauth", refresh := "rt_new", access := "at_new",
             expires := 100000 + 3600 * 1000 } ∧
    mapLookup (Pool.select envQuiet
        { account_ids := ["a"], statuses := [("a", .Available)],
          next_index := 0, cooldown_duration := 7200 }
        [("a", { credential_type := "oauth", refresh := "rt_a", access := "at_a",
                 expires := 100 })]).pool.statuses "a" = some .Disabled := by
  have h1 := (select_inline_refresh envQuiet
      { account_ids := ["a"], statuses := [("a", .Available)],
        next_index := 0, cooldown_duration := 7200 } storeAB (credFor "a")
      (by decide) rfl rfl).1 (by decide)
  have h2 := (select_inline_refresh
      { net := fun _ => some
          { status := 200, body := "",
            json := some
              { access_token := "at_new", refresh_token := "rt_new",
                expires_in := 3600 } },
        now := 0, nowMillis := 100000 }
      { account_ids := ["a"], statuses := [("a", .Available)],
        next_index := 0, cooldown_duration := 7200 }
      [("a", { credential_type := "oauth", refresh := "rt_a", access := "at_a",
               expires := 100 })]
      { credential_type := "oauth", refresh := "rt_a", access := "at_a", expires := 100 }
      (by decide) rfl rfl).2.1
      { access_token := "at_new", refresh_token := "rt_new", expires_in := 3600 }
      (by decide) rfl
  have h3 := (select_inline_refresh envQuiet
      { account_ids := ["a"], statuses := [("a", .Available)],
        next_index := 0, cooldown_duration := 7200 }
      [("a", { credential_type := "oauth", refresh := "rt_a", access := "at_a",
               expires := 100 })]
      { credential_type := "oauth", refresh := "rt_a", access := "at_a", expires := 100 }
      (by decide) rfl rfl).2.2 (.Http "token refresh request failed")
      (by decide) rfl
  refine ⟨?_, ?_, ?_, ?_⟩
  · rw [h1]
    rfl
  · rw [h2.1]
    rfl
  · rw [h2.1]
    exact h2.2
  · rw [h3.1]
    rfl

/-- C6: whenever select fails the scan, the PoolExhausted error carries
counts equal to `count_statuses` of the pool state at that moment; an
empty pool yields counts {0,0,0,0}; the `exhausted_message` JSON embeds
exactly those four counts; and after reporting QuotaExceeded for one of
two fresh accounts and Permanent for the other, the next select fails
with counts {total 2, available 0, cooling_down 1, disabled 1}. -/
theorem pool_exhausted_counts (env : Env) (st : PoolState) (store : Store) :
    (∀ counts, (Pool.select env st store).result = .error counts →
      counts = count_statuses (Pool.select env st store).pool env.now) ∧
    (st.account_ids = [] →
      (Pool.select env st store).result =
        .error { total := 0, available := 0, cooling_down := 0, disabled := 0 }) ∧
    (∀ counts : PoolCounts, ((exhausted_message counts).get "error").bind
        (fun e => e.get "pool") =
      some (.obj [("accounts_total", .num counts.total),
        ("accounts_available", .num counts.available),
        ("accounts_cooling_down", .num counts.cooling_down),
        ("accounts_disabled", .num counts.disabled)])) ∧
    (Pool.select { net := fun _ => none, now := 100, nowMillis := 0 }
        (report_error (report_error
          { account_ids := ["a", "b"],
            statuses := [("a", .Available), ("b", .Available)],
            next_index := 0, cooldown_duration := 7200 }
          "a" .QuotaExceeded 100) "b" .Permanent 100) storeAB).result =
      .error { total := 2, available := 0, cooling_down := 1, disabled := 1 } := by
  refine ⟨?_, ?_, fun counts => rfl, rfl⟩
  · intro counts h
    by_cases hn : st.account_ids.length = 0
    · have hids : st.account_ids = [] := List.length_eq_zero.mp hn
      have hsel0 : Pool.select env st store =
          { result := .error { total := 0, available := 0, cooling_down := 0, disabled := 0 },
            pool := st, store := store } := by
        simp [Pool.select, hn]
      rw [hsel0] at h ⊢
      have h2 : ({ total := 0, available := 0, cooling_down := 0, disabled := 0 } : PoolCounts) = counts := by
        simpa using h
      rw [← h2]
      simp [count_statuses, countStatusesGo, hids]
    · rcases hloop : selectLoop env st.account_ids st.account_ids.length
          (st.next_index % st.account_ids.length) 0 st.account_ids.length
          st.statuses store with ⟨o, sts2, store2⟩
      simp only [Pool.select, if_neg hn, hloop] at h ⊢
      cases o with
      | none =>
        simp only [selectFinish] at h ⊢
        simpa using h.symm
      | some sel => simp [selectFinish] at h
  · intro hids
    have hn : st.account_ids.length = 0 := by simp [hids]
    simp [Pool.select, hn]

/-- Witness for C6: the empty pool and the cooling/disabled scenario,
with the counts equation of the first conjunct applied at the scenario. -/
theorem pool_exhausted_counts_witness :
    (Pool.select envQuiet
        { account_ids := [], statuses := [],
          next_index := 0, cooldown_duration := 7200 } []).result =
      .error { total := 0, available := 0, cooling_down := 0, disabled := 0 } ∧
    ({ total := 2, available := 0, cooling_down := 1, disabled := 1 } : PoolCounts) =
      count_statuses (Pool.select { net := fun _ => none, now := 100, nowMillis := 0 }
        (report_error (report_error
          { account_ids := ["a", "b"],
            statuses := [("a", .Available), ("b", .Available)],
            next_index := 0, cooldown_duration := 7200 }
          "a" .QuotaExceeded 100) "b" .Permanent 100) storeAB).pool 100 := by
  constructor
  · exact (pool_exhausted_counts envQuiet
      { account_ids := [], statuses := [],
        next_index := 0, cooldown_duration := 7200 } []).2.1 rfl
  · exact (pool_exhausted_counts { net := fun _ => none, now := 100, nowMillis := 0 }
      (report_error (report_error
        { account_ids := ["a", "b"],
          statuses := [("a", .Available), ("b", .Available)],
          next_index := 0, cooldown_duration := 7200 }
        "a" .QuotaExceeded 100) "b" .Permanent 100) storeAB).1
      { total := 2, available := 0, cooling_down := 1, disabled := 1 } rfl

/-- C10 counterexample: an account that is Disabled is re-enabled by
`add_account` of the same id — the pool operation unconditionally sets
the added account to Available — so Disabled is not preserved by every
operation other than `remove_account`. -/
theorem disabled_cleared_counterexample :
    mapLookup ({ account_ids := ["a"], statuses := [("a", .Disabled)],
                 next_index := 0, cooldown_duration := 7200 } : PoolState).statuses "a" =
      some .Disabled ∧
    mapLookup (add_account
        { account_ids := ["a"], statuses := [("a", .Disabled)],
          next_index := 0, cooldown_duration := 7200 } "a").statuses "a" =
      some .Available ∧
    (some AccountStatus.Available ≠ some AccountStatus.Disabled) := by
  exact ⟨rfl, rfl, by decide⟩

/-- C10 (amended): select preserves Disabled for every account and never
returns a Disabled account; report_error and add_account preserve a
Disabled account unless they target that same account: report_error with
Transient or Permanent still leaves it Disabled, while
report_error(id, QuotaExceeded) moves it to CoolingDown and
add_account(id) resets it to Available. -/
theorem disabled_preserved_amended :
    (∀ (env : Env) (st : PoolState) (store : Store) (id : String),
      mapLookup st.statuses id = some .Disabled →
      mapLookup (Pool.select env st store).pool.statuses id = some .Disabled ∧
      (∀ sel, (Pool.select env st store).result = .ok sel → sel.id ≠ id)) ∧
    (∀ (st : PoolState) (id id2 : String) (cls : ErrorClassification) (now : Nat),
      mapLookup st.statuses id = some .Disabled → id2 ≠ id →
      mapLookup (report_error st id2 cls now).statuses id = some .Disabled) ∧
    (∀ (st : PoolState) (id : String) (now : Nat),
      mapLookup st.statuses id = some .Disabled →
      mapLookup (report_error st id .Permanent now).statuses id = some .Disabled) ∧
    (∀ (st : PoolState) (id : String) (now : Nat),
      mapLookup st.statuses id = some .Disabled →
      mapLookup (report_error st id .Transient now).statuses id = some .Disabled) ∧
    (∀ (st : PoolState) (id id2 : String),
      mapLookup st.statuses id = some .Disabled → id2 ≠ id →
      mapLookup (add_account st id2).statuses id = some .Disabled) ∧
    (∀ (st : PoolState) (id : String) (now : Nat),
      mapLookup (report_error st id .QuotaExceeded now).statuses id =
        some (.CoolingDown (now + st.cooldown_duration))) ∧
    (∀ (st : PoolState) (id : String),
      mapLookup (add_account st id).statuses id = some .Available) := by
  refine ⟨?_, ?_, ?_, ?_, ?_, ?_, ?_⟩
  · intro env st store id h
    exact ⟨select_keeps_disabled h,
      fun sel hr => select_result_ne_of_bad (Or.inl h) sel hr⟩
  · intro st id id2 cls now h hne
    cases cls <;>
      simp [report_error, mapLookup_insert_ne _ _ _ _ hne, h]
  · intro st id now h
    simp [report_error, mapLookup_insert_self]
  · intro st id now h
    simpa [report_error] using h
  · intro st id id2 h hne
    simp [add_account, mapLookup_insert_ne _ _ _ _ hne, h]
  · intro st id now
    simp [report_error, mapLookup_insert_self]
  · intro st id
    simp [add_account, mapLookup_insert_self]

/-- Witness for the amended C10 at a one-account Disabled pool. -/
theorem disabled_preserved_amended_witness :
    mapLookup (Pool.select envQuiet
        { account_ids := ["a"], statuses := [("a", .Disabled)], next_index := 0,
          cooldown_duration := 7200 } storeAB).pool.statuses "a" = some .Disabled ∧
    mapLookup (report_error
        { account_ids := ["a"], statuses := [("a", .Disabled)],
          next_index := 0, cooldown_duration := 7200 } "b" .QuotaExceeded 5).statuses "a" =
      some .Disabled ∧
    mapLookup (report_error
        { account_ids := ["a"], statuses := [("a", .Disabled)],
          next_index := 0, cooldown_duration := 7200 } "a" .QuotaExceeded 5).statuses "a" =
      some (.CoolingDown (5 + 7200)) := by
  refine ⟨?_, ?_, ?_⟩
  · exact ((disabled_preserved_amended).1 envQuiet
      { account_ids := ["a"], statuses := [("a", .Disabled)], next_index := 0,
        cooldown_duration := 7200 } storeAB "a" rfl).1
  · exact (disabled_preserved_amended).2.1
      { account_ids := ["a"], statuses := [("a", .Disabled)], next_index := 0,
        cooldown_duration := 7200 }
      "a" "b" .QuotaExceeded 5 rfl (by decide)
  · exact (disabled_preserved_amended).2.2.2.2.2.1
      { account_ids := ["a"], statuses := [("a", .Disabled)], next_index := 0,
        cooldown_duration := 7200 }
      "a" 5

/-- C5: when, in OAuth mode, the first selected account's upstream
response is a 4xx/5xx classifying as Permanent, the pipeline reports the
classification (the account becomes Disabled), returns the upstream
status and body verbatim immediately, sends a request with no other
account (the tried list is exactly that one account), and subsequent
selects skip the account. -/
theorem permanent_error_no_failover (env : Env) (st : PoolState) (store : Store)
    (upstream : String → Nat × String) (fuel : Nat) (sel : SelectedAccount)
    (s : Nat) (b : String)
    (hsel : (Pool.select env st store).result = .ok sel)
    (hup : upstream sel.id = (s, b))
    (h4 : 400 ≤ s) (h5 : s ≤ 599)
    (hperm : classify_status s b = .Permanent) :
    pipelineLoop env upstream (fuel + 1) st store [] =
      (.upstreamResp s b,
       report_error (Pool.select env st store).pool sel.id .Permanent env.now,
       (Pool.select env st store).store, [sel.id]) ∧
    mapLookup (report_error (Pool.select env st store).pool sel.id .Permanent
        env.now).statuses sel.id = some .Disabled ∧
    (∀ (env2 : Env) (store2 : Store) sel2,
      (Pool.select env2 (report_error (Pool.select env st store).pool sel.id
          .Permanent env.now) store2).result = .ok sel2 → sel2.id ≠ sel.id) := by
  have hdis : mapLookup (report_error (Pool.select env st store).pool sel.id
      .Permanent env.now).statuses sel.id = some .Disabled := by
    simp only [report_error]
    exact mapLookup_insert_self _ _ _
  refine ⟨?_, hdis, ?_⟩
  · simp [pipelineLoop, hsel, hup, hperm, h4, h5]
  · intro env2 store2 sel2 h
    exact select_result_ne_of_bad (Or.inl hdis) sel2 h

/-- Witness for C5: a two-account pool where account "a" gets a 401 —
the client receives the 401 verbatim, only "a" was tried, "a" is
Disabled, and the next select returns "b". -/
theorem permanent_error_no_failover_witness :
    pipelineLoop envQuiet
        (fun id => if id = "a" then (401, "unauthorized") else (200, "ok"))
        2 poolAB storeAB [] =
      (.upstreamResp 401 "unauthorized",
       report_error (Pool.select envQuiet poolAB storeAB).pool "a" .Permanent 0,
       (Pool.select envQuiet poolAB storeAB).store, ["a"]) ∧
    mapLookup (report_error (Pool.select envQuiet poolAB storeAB).pool "a"
        .Permanent 0).statuses "a" = some .Disabled := by
  have h := permanent_error_no_failover envQuiet poolAB storeAB
      (fun id => if id = "a" then (401, "unauthorized") else (200, "ok"))
      1 { id := "a", access_token := "at_a" } 401 "unauthorized"
      rfl rfl (by decide) (by decide) (by decide)
  exact ⟨h.1, h.2.1⟩

theorem storeGet_updateToken_ne (store : Store) (k id a r : String) (e : Nat)
    (hne : k ≠ id) :
    storeGet (storeUpdateToken store k a r e) id = storeGet store id := by
  simp only [storeUpdateToken]
  rcases h : mapLookup store k with _ | c
  · rfl
  · exact mapLookup_insert_ne _ _ _ _ hne

theorem storeGet_updateToken_self (store : Store) (k a r : String) (e : Nat)
    (c : Credential) (h : storeGet store k = some c) :
    storeGet (storeUpdateToken store k a r e) k =
      some { c with access := a, refresh := r, expires := e } := by
  have h2 : mapLookup store k = some c := h
  simp only [storeUpdateToken, h2]
  exact mapLookup_insert_self _ _ _

theorem refreshCycleGo_cons_ne (net : String → Option HttpResponse) (now th : Nat)
    (hd : String) (rest : List String) (statuses : List (String × AccountStatus))
    (store : Store) (id : String) (hne : hd ≠ id) :
    ∃ statuses2 store2,
      refreshCycleGo net now th (hd :: rest) statuses store =
        refreshCycleGo net now th rest statuses2 store2 ∧
      mapLookup statuses2 id = mapLookup statuses id ∧
      storeGet store2 id = storeGet store id := by
  rcases hsg : storeGet store hd with _ | c
  · exact ⟨statuses, store, by simp only [refreshCycleGo, hsg], rfl, rfl⟩
  · by_cases hth : now + th < c.expires
    · exact ⟨statuses, store,
        by simp only [refreshCycleGo, hsg, if_pos hth], rfl, rfl⟩
    · rcases hr : attemptRefresh net c.refresh with e | tr
      · cases e with
        | InvalidCredentials msg =>
          exact ⟨mapInsert statuses hd .Disabled, store,
            by simp only [refreshCycleGo, hsg, if_neg hth, hr],
            mapLookup_insert_ne _ _ _ _ hne, rfl⟩
        | Http msg =>
          exact ⟨statuses, store,
            by simp only [refreshCycleGo, hsg, if_neg hth, hr], rfl, rfl⟩
        | TokenExchange msg =>
          exact ⟨statuses, store,
            by simp only [refreshCycleGo, hsg, if_neg hth, hr], rfl, rfl⟩
        | CredentialParse msg =>
          exact ⟨statuses, store,
            by simp only [refreshCycleGo, hsg, if_neg hth, hr], rfl, rfl⟩
        | IoErr msg =>
          exact ⟨statuses, store,
            by simp only [refreshCycleGo, hsg, if_neg hth, hr], rfl, rfl⟩
        | NotFound msg =>
          exact ⟨statuses, store,
            by simp only [refreshCycleGo, hsg, if_neg hth, hr], rfl, rfl⟩
      · exact ⟨statuses,
          storeUpdateToken store hd tr.access_token tr.refresh_token
            (now + tr.expires_in * 1000),
          by simp only [refreshCycleGo, hsg, if_neg hth, hr], rfl,
          storeGet_updateToken_ne _ _ _ _ _ _ hne⟩

theorem refreshCycleGo_frame (net : String → Option HttpResponse) (now th : Nat) :
    ∀ (ids : List String) (statuses : List (String × AccountStatus)) (store : Store)
      (id : String), id ∉ ids →
      mapLookup (refreshCycleGo net now th ids statuses store).1 id =
        mapLookup statuses id ∧
      storeGet (refreshCycleGo net now th ids statuses store).2 id =
        storeGet store id := by
  intro ids
  induction ids with
  | nil => intro statuses store id h; exact ⟨rfl, rfl⟩
  | cons hd rest ih =>
    intro statuses store id hnot
    have hne : hd ≠ id := fun he => hnot (he ▸ List.mem_cons_self hd rest)
    have hnr : id ∉ rest := fun h => hnot (List.mem_cons_of_mem _ h)
    obtain ⟨sts2, st2, heq, hp1, hp2⟩ :=
      refreshCycleGo_cons_ne net now th hd rest statuses store id hne
    rw [heq]
    obtain ⟨g1, g2⟩ := ih sts2 st2 id hnr
    exact ⟨by rw [g1, hp1], by rw [g2, hp2]⟩

theorem refreshCycleGo_post (net : String → Option HttpResponse) (now th : Nat) :
    ∀ (ids : List String) (statuses : List (String × AccountStatus)) (store : Store)
      (id : String), ids.Nodup → id ∈ ids →
      ((storeGet store id = none →
        storeGet (refreshCycleGo net now th ids statuses store).2 id = none ∧
        mapLookup (refreshCycleGo net now th ids statuses store).1 id =
          mapLookup statuses id) ∧
      (∀ c, storeGet store id = some c →
        ((now + th < c.expires →
          storeGet (refreshCycleGo net now th ids statuses store).2 id = some c ∧
          mapLookup (refreshCycleGo net now th ids statuses store).1 id =
            mapLookup statuses id) ∧
        (c.expires ≤ now + th →
          ((∀ tr, attemptRefresh net c.refresh = .ok tr →
            storeGet (refreshCycleGo net now th ids statuses store).2 id =
              some { c with
                     access := tr.access_token, refresh := tr.refresh_token,
                     expires := now + tr.expires_in * 1000 } ∧
            mapLookup (refreshCycleGo net now th ids statuses store).1 id =
              mapLookup statuses id) ∧
          (∀ msg, attemptRefresh net c.refresh = .error (.InvalidCredentials msg) →
            mapLookup (refreshCycleGo net now th ids statuses store).1 id =
              some .Disabled ∧
            storeGet (refreshCycleGo net now th ids statuses store).2 id = some c) ∧
          (∀ e, attemptRefresh net c.refresh = .error e →
            (∀ msg, e ≠ .InvalidCredentials msg) →
            storeGet (refreshCycleGo net now th ids statuses store).2 id = some c ∧
            mapLookup (refreshCycleGo net now th ids statuses store).1 id =
              mapLookup statuses id)))))) := by
  intro ids
  induction ids with
  | nil => intro statuses store id _ hid; exact absurd hid (List.not_mem_nil id)
  | cons hd rest ih =>
    intro statuses store id hnodup hid
    have hnodup2 : rest.Nodup := (List.nodup_cons.mp hnodup).2
    have hhd : hd ∉ rest := (List.nodup_cons.mp hnodup).1
    rcases List.mem_cons.mp hid with rfl | hid2
    · refine ⟨?_, ?_⟩
      · intro hnone
        simp only [refreshCycleGo, hnone]
        obtain ⟨f1, f2⟩ := refreshCycleGo_frame net now th rest statuses store id hhd
        exact ⟨by rw [f2, hnone], f1⟩
      · intro c hc
        refine ⟨?_, ?_⟩
        · intro hth
          simp only [refreshCycleGo, hc, if_pos hth]
          obtain ⟨f1, f2⟩ := refreshCycleGo_frame net now th rest statuses store id hhd
          exact ⟨by rw [f2, hc], f1⟩
        · intro hle
          have hth2 : ¬(now + th < c.expires) := by omega
          refine ⟨?_, ?_, ?_⟩
          · intro tr hr
            simp only [refreshCycleGo, hc, if_neg hth2, hr]
            obtain ⟨f1, f2⟩ := refreshCycleGo_frame net now th rest statuses
              (storeUpdateToken store id tr.access_token tr.refresh_token
                (now + tr.expires_in * 1000)) id hhd
            refine ⟨?_, f1⟩
            rw [f2]
            exact storeGet_updateToken_self store id tr.access_token
              tr.refresh_token (now + tr.expires_in * 1000) c hc
          · intro msg hr
            simp only [refreshCycleGo, hc, if_neg hth2, hr]
            obtain ⟨f1, f2⟩ := refreshCycleGo_frame net now th rest
              (mapInsert statuses id .Disabled) store id hhd
            refine ⟨?_, by rw [f2, hc]⟩
            rw [f1]
            exact mapLookup_insert_self _ _ _
          · intro e hr hnic
            cases e with
            | InvalidCredentials msg => exact absurd rfl (hnic msg)
            | Http msg =>
              simp only [refreshCycleGo, hc, if_neg hth2, hr]
              obtain ⟨f1, f2⟩ := refreshCycleGo_frame net now th rest statuses store id hhd
              exact ⟨by rw [f2, hc], f1⟩
            | TokenExchange msg =>
              simp only [refreshCycleGo, hc, if_neg hth2, hr]
              obtain ⟨f1, f2⟩ := refreshCycleGo_frame net now th rest statuses store id hhd
              exact ⟨by rw [f2, hc], f1⟩
            | CredentialParse msg =>
              simp only [refreshCycleGo, hc, if_neg hth2, hr]
              obtain ⟨f1, f2⟩ := refreshCycleGo_frame net now th rest statuses store id hhd
              exact ⟨by rw [f2, hc], f1⟩
            | IoErr msg =>
              simp only [refreshCycleGo, hc, if_neg hth2, hr]
              obtain ⟨f1, f2⟩ := refreshCycleGo_frame net now th rest statuses store id hhd
              exact ⟨by rw [f2, hc], f1⟩
            | NotFound msg =>
              simp only [refreshCycleGo, hc, if_neg hth2, hr]
              obtain ⟨f1, f2⟩ := refreshCycleGo_frame net now th rest statuses store id hhd
              exact ⟨by rw [f2, hc], f1⟩
    · have hne : hd ≠ id := fun he => hhd (he ▸ hid2)
      obtain ⟨sts2, st2, heq, hp1, hp2⟩ :=
        refreshCycleGo_cons_ne net now th hd rest statuses store id hne
      rw [heq]
      have IH := ih sts2 st2 id hnodup2 hid2
      refine ⟨?_, ?_⟩
      · intro hnone
        obtain ⟨g1, g2⟩ := IH.1 (by rw [hp2]; exact hnone)
        exact ⟨g1, by rw [g2, hp1]⟩
      · intro c hc
        have hc2 : storeGet st2 id = some c := by rw [hp2]; exact hc
        refine ⟨?_, ?_⟩
        · intro hth
          obtain ⟨g1, g2⟩ := (IH.2 c hc2).1 hth
          exact ⟨g1, by rw [g2, hp1]⟩
        · intro hle
          refine ⟨?_, ?_, ?_⟩
          · intro tr hr
            obtain ⟨g1, g2⟩ := ((IH.2 c hc2).2 hle).1 tr hr
            exact ⟨g1, by rw [g2, hp1]⟩
          · intro msg hr
            exact ((IH.2 c hc2).2 hle).2.1 msg hr
          · intro e hr hnic
            obtain ⟨g1, g2⟩ := ((IH.2 c hc2).2 hle).2.2 e hr hnic
            exact ⟨g1, by rw [g2, hp1]⟩

/-- C7: background refresher tick postcondition, per account id of the
pool snapshot — when the credential is absent or expires beyond
now + threshold, both the credential and the pool status are unchanged;
otherwise a token-endpoint refresh is attempted: on success the new
triple is persisted (status untouched); on an InvalidCredentials
response (401/403 from the token endpoint) the pool status is set to
Disabled without touching the stored credential; on any other error both
are left unchanged. -/
theorem refresh_tick_postcondition (net : String → Option HttpResponse)
    (now th : Nat) (st : PoolState) (store : Store) (id : String)
    (hnodup : st.account_ids.Nodup) (hid : id ∈ st.account_ids) :
    (storeGet store id = none →
      storeGet (refresh_cycle net now th st store).2 id = none ∧
      mapLookup (refresh_cycle net now th st store).1.statuses id =
        mapLookup st.statuses id) ∧
    (∀ c, storeGet store id = some c →
      ((now + th < c.expires →
        storeGet (refresh_cycle net now th st store).2 id = some c ∧
        mapLookup (refresh_cycle net now th st store).1.statuses id =
          mapLookup st.statuses id) ∧
      (c.expires ≤ now + th →
        ((∀ tr, attemptRefresh net c.refresh = .ok tr →
          storeGet (refresh_cycle net now th st store).2 id =
            some { c with
                   access := tr.access_token, refresh := tr.refresh_token,
                   expires := now + tr.expires_in * 1000 } ∧
          mapLookup (refresh_cycle net now th st store).1.statuses id =
            mapLookup st.statuses id) ∧
        (∀ msg, attemptRefresh net c.refresh = .error (.InvalidCredentials msg) →
          mapLookup (refresh_cycle net now th st store).1.statuses id =
            some .Disabled ∧
          storeGet (refresh_cycle net now th st store).2 id = some c) ∧
        (∀ e, attemptRefresh net c.refresh = .error e →
          (∀ msg, e ≠ .InvalidCredentials msg) →
          storeGet (refresh_cycle net now th st store).2 id = some c ∧
          mapLookup (refresh_cycle net now th st store).1.statuses id =
            mapLookup st.statuses id))))) :=
  refreshCycleGo_post net now th st.account_ids st.statuses store id hnodup hid

/-- Witness for C7 covering the four behaviors at one-account pools: a
far-future credential is untouched; a soon-expiring one is refreshed and
persisted; a 401 from the token endpoint disables the account without
touching the credential; a transport error leaves both unchanged. -/
theorem refresh_tick_postcondition_witness :
    storeGet (refresh_cycle (fun _ => none) 0 900000
        { account_ids := ["a"], statuses := [("a", .Available)],
          next_index := 0, cooldown_duration := 7200 } storeAB).2 "a" =
      some (credFor "a") ∧
    storeGet (refresh_cycle
        (fun _ => some
          { status := 200, body := "",
            json := some
              { access_token := "at_new", refresh_token := "rt_new",
                expires_in := 3600 } }) 0 900000
        { account_ids := ["a"], statuses := [("a", .Available)],
          next_index := 0, cooldown_duration := 7200 }
        [("a", { credential_type := "oauth", refresh := "rt_a", access := "at_a",
                 expires := 100 })]).2 "a" =
      some { credential_type := "oauth", refresh := "rt_new", access := "at_new",
             expires := 0 + 3600 * 1000 } ∧
    mapLookup (refresh_cycle
        (fun _ => some { status := 401, body := "revoked", json := none }) 0 900000
        { account_ids := ["a"], statuses := [("a", .Available)],
          next_index := 0, cooldown_duration := 7200 }
        [("a", { credential_type := "oauth", refresh := "rt_a", access := "at_a",
                 expires := 100 })]).1.statuses "a" =
      some .Disabled ∧
    storeGet (refresh_cycle (fun _ => none) 0 900000
        { account_ids := ["a"], statuses := [("a", .Available)],
          next_index := 0, cooldown_duration := 7200 }
        [("a", { credential_type := "oauth", refresh := "rt_a", access := "at_a",
                 expires := 100 })]).2 "a" =
      some { credential_type := "oauth", refresh := "rt_a", access := "at_a",
             expires := 100 } := by
  refine ⟨?_, ?_, ?_, ?_⟩
  · exact (((refresh_tick_postcondition (fun _ => none) 0 900000
      { account_ids := ["a"], statuses := [("a", .Available)],
        next_index := 0, cooldown_duration := 7200 } storeAB "a"
      (by decide) (by decide)).2 (credFor "a") rfl).1 (by decide)).1
  · exact ((((refresh_tick_postcondition
      (fun _ => some
        { status := 200, body := "",
          json := some
            { access_token := "at_new", refresh_token := "rt_new",
              expires_in := 3600 } }) 0 900000
      { account_ids := ["a"], statuses := [("a", .Available)],
        next_index := 0, cooldown_duration := 7200 }
      [("a", { credential_type := "oauth", refresh := "rt_a", access := "at_a",
               expires := 100 })] "a"
      (by decide) (by decide)).2
      { credential_type := "oauth", refresh := "rt_a", access := "at_a",
        expires := 100 } rfl).2 (by decide)).1
      { access_token := "at_new", refresh_token := "rt_new", expires_in := 3600 }
      rfl).1
  · exact ((((refresh_tick_postcondition
      (fun _ => some { status := 401, body := "revoked", json := none }) 0 900000
      { account_ids := ["a"], statuses := [("a", .Available)],
        next_index := 0, cooldown_duration := 7200 }
      [("a", { credential_type := "oauth", refresh := "rt_a", access := "at_a",
               expires := 100 })] "a"
      (by decide) (by decide)).2
      { credential_type := "oauth", refresh := "rt_a", access := "at_a",
        expires := 100 } rfl).2 (by decide)).2.1 "revoked" rfl).1
  · exact ((((refresh_tick_postcondition (fun _ => none) 0 900000
      { account_ids := ["a"], statuses := [("a", .Available)],
        next_index := 0, cooldown_duration := 7200 }
      [("a", { credential_type := "oauth", refresh := "rt_a", access := "at_a",
               expires := 100 })] "a"
      (by decide) (by decide)).2
      { credential_type := "oauth", refresh := "rt_a", access := "at_a",
        expires := 100 } rfl).2 (by decide)).2.2
      (.Http "token refresh request failed") rfl
      (by intro msg h; exact AuthError.noConfusion h)).1

end TailnetProxy
